import Mathlib

/-!
Verification of the metalsmith-mapsite plugin (src/lib/index.js).

The plugin is shallowly embedded: JavaScript values that can appear in
frontmatter fields and sitemap-entry fields are modelled by the inductive
type Val (numbers as exact rationals; JS Date objects as their epoch
millisecond value). JavaScript objects with string keys are modelled as
association lists (type Obj) with insertion-order update semantics, which
matches JS object key semantics (unique keys, assignment overwrites in
place or appends). Exceptions thrown by the code are modelled with Except.

External collaborators are abstracted exactly as the code uses them:
glob matching (the multimatch package) is a parameter
gm : String → String → Bool modelling the truthiness of
match(file, pattern)[0]; the XML serializer and output-file write are not
modelled (no claim is about them). Node's path.basename / path.extname
(posix variants, applicable after slash-normalization) and the slash
package are translated from their sources. Date("YYYY-MM-DD") parsing
follows the ECMA simplified ISO date-only form (treated as UTC), and
Date.prototype.toUTCString follows the ECMA UTC formatting.
-/

set_option autoImplicit false

namespace Mapsite

/-! Rational constants in constructor form. Literals built with division
do not reduce in the kernel (Nat.gcd is well-founded), so the values the
samples need are given as explicit reduced fractions; the lemmas
qHalf_eq etc. below connect them to the usual notation. -/

def qHalf : ℚ := ⟨1, 2, by norm_num, by norm_num⟩

def qNineTenths : ℚ := ⟨9, 10, by norm_num, by norm_num⟩

def qThreeTenths : ℚ := ⟨3, 10, by norm_num, by norm_num⟩

def qSevenTenths : ℚ := ⟨7, 10, by norm_num, by norm_num⟩

def qFourFifths : ℚ := ⟨4, 5, by norm_num, by norm_num⟩

/-- A JavaScript value as it occurs in frontmatter and sitemap entries:
strings, numbers (modelled as exact rationals), booleans, Date objects
(modelled by their epoch-millisecond timestamp) and undefined. -/
inductive Val where
| vstr (s : String)
| vnum (q : ℚ)
| vbool (b : Bool)
| vdate (ms : ℤ)
| vundefined
deriving DecidableEq, Repr

/-- JavaScript truthiness of a value. -/
def truthy : Val → Bool
| .vstr s => s ≠ ""
| .vnum q => q ≠ 0
| .vbool b => b
| .vdate _ => true
| .vundefined => false

/-- The JavaScript expression a || b. -/
def jsOr (a b : Val) : Val := if truthy a then a else b

/-- Reading an Option-modelled object property: an absent property reads
as undefined. -/
def optVal : Option Val → Val := fun o => o.getD .vundefined

/-- A JavaScript object with string keys, as an association list in key
insertion order. -/
abbrev Obj := List (String × Val)

/-- Association list lookup (first match wins; JS objects have unique
keys, so this is plain property lookup). -/
def alistGet {α : Type} : List (String × α) → String → Option α
| [], _ => none
| (k, v) :: rest, key => if k = key then some v else alistGet rest key

/-- Property read on an Obj. -/
def Obj.get (o : Obj) (k : String) : Option Val := alistGet o k

/-- Property read with JS semantics: absent property reads as undefined. -/
def jsGet (o : Obj) (k : String) : Val := optVal (o.get k)

/-- Property assignment on an Obj: overwrite in place if the key exists,
append otherwise (JS object insertion-order semantics). -/
def Obj.set : Obj → String → Val → Obj
| [], k, v => [(k, v)]
| (k', v') :: rest, k, v =>
  if k' = k then (k, v) :: rest else (k', v') :: Obj.set rest k v

/-- The JavaScript expression (k in o). -/
def Obj.hasKey (o : Obj) (k : String) : Bool := (o.get k).isSome

/-- Merging src into e, key by key, as both Object.assign(e, src) and a
forEach of assignments over Object.keys(src) do. -/
def mergeObj (e src : Obj) : Obj := src.foldl (fun a kv => a.set kv.1 kv.2) e

/-! Calendar arithmetic for modelling the JS Date built-ins. -/

/-- Day count from civil date to days since 1970-01-01 (proleptic
Gregorian, Hinnant's algorithm with floor division). -/
def daysFromCivil (y m d : ℤ) : ℤ :=
  let y' := if m ≤ 2 then y - 1 else y
  let era := y'.fdiv 400
  let yoe := y' - era * 400
  let mp := if m > 2 then m - 3 else m + 9
  let doy := (153 * mp + 2).fdiv 5 + d - 1
  let doe := yoe * 365 + yoe.fdiv 4 - yoe.fdiv 100 + doy
  era * 146097 + doe - 719468

/-- Inverse of daysFromCivil: days since the epoch to (year, month, day). -/
def civilFromDays (z : ℤ) : ℤ × ℤ × ℤ :=
  let z' := z + 719468
  let era := z'.fdiv 146097
  let doe := z' - era * 146097
  let yoe := (doe - doe.fdiv 1460 + doe.fdiv 36524 - doe.fdiv 146096).fdiv 365
  let y := yoe + era * 400
  let doy := doe - (365 * yoe + yoe.fdiv 4 - yoe.fdiv 100)
  let mp := (5 * doy + 2).fdiv 153
  let d := doy - (153 * mp + 2).fdiv 5 + 1
  let m := if mp < 10 then mp + 3 else mp - 9
  (if m ≤ 2 then y + 1 else y, m, d)

def weekdayName (w : ℤ) : String :=
  (["Sun", "Mon", "Tue", "Wed", "Thu", "Fri", "Sat"]).getD w.toNat ""

def monthName (m : ℤ) : String :=
  (["Jan", "Feb", "Mar", "Apr", "May", "Jun",
    "Jul", "Aug", "Sep", "Oct", "Nov", "Dec"]).getD (m - 1).toNat ""

/-- Left-pad a numeral with zeros to two digits. -/
def pad2 (n : ℤ) : String := if n < 10 then "0" ++ toString n else toString n

/-- Pad a nonnegative numeral to at least four digits. -/
def padYearNat (y : ℕ) : String :=
  if y < 10 then "000" ++ toString y
  else if y < 100 then "00" ++ toString y
  else if y < 1000 then "0" ++ toString y
  else toString y

/-- Pad a year to at least four digits, with a sign for negative years. -/
def padYear (y : ℤ) : String :=
  if y < 0 then "-" ++ padYearNat (-y).toNat else padYearNat y.toNat

/-- Date.prototype.toUTCString on a time value (none models an invalid
date, whose time value is NaN). -/
def jsToUTCString : Option ℤ → String
| none => "Invalid Date"
| some ms =>
  let days := ms.fdiv 86400000
  let rem := ms.emod 86400000
  let hh := rem.fdiv 3600000
  let mm := (rem.fdiv 60000).emod 60
  let ss := (rem.fdiv 1000).emod 60
  let wd := (days + 4).emod 7
  let c := civilFromDays days
  weekdayName wd ++ ", " ++ pad2 c.2.2 ++ " " ++ monthName c.2.1 ++ " " ++
    padYear c.1 ++ " " ++ pad2 hh ++ ":" ++ pad2 mm ++ ":" ++ pad2 ss ++ " GMT"

def digitVal (c : Char) : ℕ := c.toNat - 48

def isLeap (y : ℤ) : Bool := y.emod 4 = 0 ∧ (y.emod 100 ≠ 0 ∨ y.emod 400 = 0)

def daysInMonth (y m : ℤ) : ℤ :=
  if m = 2 then (if isLeap y then 29 else 28)
  else if m = 4 ∨ m = 6 ∨ m = 9 ∨ m = 11 then 30
  else 31

/-- Parsing of the ECMA simplified ISO date-only form "YYYY-MM-DD",
interpreted as midnight UTC; anything else is an invalid date. (Real JS
engines accept further implementation-defined formats; no claim uses
them.) -/
def parseISODate (s : String) : Option ℤ :=
  match s.toList with
  | [y1, y2, y3, y4, h1, m1, m2, h2, d1, d2] =>
    if h1 = '-' ∧ h2 = '-' ∧
        (y1.isDigit ∧ y2.isDigit ∧ y3.isDigit ∧ y4.isDigit) ∧
        (m1.isDigit ∧ m2.isDigit) ∧ (d1.isDigit ∧ d2.isDigit) then
      let y : ℤ := (digitVal y1 * 1000 + digitVal y2 * 100 + digitVal y3 * 10 + digitVal y4 : ℕ)
      let m : ℤ := (digitVal m1 * 10 + digitVal m2 : ℕ)
      let d : ℤ := (digitVal d1 * 10 + digitVal d2 : ℕ)
      if 1 ≤ m ∧ m ≤ 12 ∧ 1 ≤ d ∧ d ≤ daysInMonth y m then
        some (daysFromCivil y m d * 86400000)
      else none
    else none
  | _ => none

/-- Truncation of a rational toward zero, as ECMA TimeClip does to a
finite numeric time value. -/
def ratTrunc (q : ℚ) : ℤ := q.num.tdiv q.den

/-- The time value of new Date(v): none models an invalid date. -/
def jsNewDate : Val → Option ℤ
| .vdate ms => some ms
| .vstr s => parseISODate s
| .vnum q => some (ratTrunc q)
| .vbool b => some (if b then 1 else 0)
| .vundefined => none

/-- Rendering of a (nonnegative) rational in decimal for use as a JS
property key; long division up to 20 fractional digits. -/
def fracDigits : ℕ → ℕ → ℕ → String
| 0, _, _ => ""
| _, 0, _ => ""
| fuel + 1, rem, den =>
  let rem' := rem * 10
  toString (rem' / den) ++ fracDigits fuel (rem' % den) den

def ratToJsStringNN (n den : ℕ) : String :=
  let ip := n / den
  let rem := n % den
  if rem = 0 then toString ip
  else toString ip ++ "." ++ fracDigits 20 rem den

def ratToJsString (q : ℚ) : String :=
  if q < 0 then "-" ++ ratToJsStringNN (-q.num).toNat q.den
  else ratToJsStringNN q.num.toNat q.den

/-- Conversion of a value to a JS property-key string (used when a
frontmatter page_type value indexes the page_types object). JS renders a
Date key with its local-time toString; dates are modelled here with their
UTC rendering, which no claim depends on. -/
def jsToPropKey : Val → String
| .vstr s => s
| .vnum q => ratToJsString q
| .vbool b => if b then "true" else "false"
| .vdate ms => jsToUTCString (some ms)
| .vundefined => "undefined"

/-! Path helpers: the slash package and Node's posix path.basename and
path.extname, translated from their sources. -/

/-- The slash package: convert backslashes to forward slashes, except
for extended-length Windows paths (those starting with the four
characters backslash backslash question-mark backslash). Character-list
implementation so the kernel can evaluate it. -/
def slash (p : String) : String :=
  if p.data.take 4 = ['\\', '\\', '?', '\\'] then p
  else String.mk (p.data.map fun c => if c = '\\' then '/' else c)

/-- Drop trailing forward slashes (Node's basename and extname ignore
them via their matchedSlash scan). -/
def stripTrailingSlashes (s : String) : String :=
  String.mk (s.data.reverse.dropWhile (· = '/')).reverse

/-- Node path.posix.basename (no extension argument): the segment after
the last slash, trailing slashes ignored; the empty string when nothing
remains. -/
def basename (p : String) : String :=
  String.mk ((stripTrailingSlashes p).data.reverse.takeWhile (· ≠ '/')).reverse

/-- Node path.posix.extname: the suffix of the basename from its last
dot, except that a basename with no dot, a basename whose only dot is
its first character, or the basename ".." yield the empty string. -/
def extname (p : String) : String :=
  let b := basename p
  if b = ".." then ""
  else
    let cs := b.data
    let afterDot := cs.reverse.takeWhile (· ≠ '.')
    if afterDot.length = cs.length then ""
    else if cs.length - afterDot.length - 1 = 0 then ""
    else String.mk (cs.drop (cs.length - afterDot.length - 1))

/-- JavaScript String.prototype.endsWith, on character lists so the
kernel can evaluate it. -/
def strEndsWith (input suffix : String) : Bool :=
  decide (input.data.drop (input.data.length - suffix.data.length) = suffix.data)

/-- The plugin's chompRight helper: drop a suffix when present (the
take of the length difference is JS slice(0, len - suffix.len)). -/
def chompRight (input suffix : String) : String :=
  if strEndsWith input suffix then
    String.mk (input.data.take (input.data.length - suffix.data.length))
  else input

/-! The plugin's data model. -/

/-- The stats record a pipeline stage attaches to a file (only the mtime
property is read by the plugin). The field is optional: a stats object
may lack it (it then reads as undefined). -/
structure Stats where
  mtime : Option Val
deriving DecidableEq, Repr

/-- A file's frontmatter record. Every field the plugin reads or writes
is modelled; some v with v possibly vundefined models a property that is
present but undefined, none models an absent property (the code
distinguishes the two via hasOwnProperty). The field named private in
the source is called priv here (private is a Lean keyword). -/
structure Frontmatter where
  priv : Option Val := none
  canonical : Option Val := none
  date : Option Val := none
  stats : Option Stats := none
  page_type : Option Val := none
  changefreq : Option Val := none
  priority : Option Val := none
  lastmod : Option Val := none
  sitemap : Option Obj := none
deriving DecidableEq, Repr

/-- The options object passed to the plugin (or the bare hostname
string, see OptsInput). Numeric priority is modelled as Option ℚ: some q
is a value for which isNaN is false, none a value for which it is true
(absent or not a valid number). page_types values are modelled as
objects, per the CategoryDefaults data model. -/
structure Options where
  hostname : Option String := none
  lastmod : Option Val := none
  omitExtension : Bool := false
  omitIndex : Bool := false
  output : Option String := none
  pattern : Option String := none
  omitPattern : Option String := none
  overrides : Option (List (String × Obj)) := none
  priority : Option ℚ := none
  page_types : Option (List (String × Obj)) := none
  beautify : Bool := false
deriving DecidableEq, Repr

/-- The argument of the exported plugin function: a bare hostname
string, a full options object, or nothing (undefined, which the code
replaces with an empty object). -/
inductive OptsInput where
| str (s : String)
| obj (o : Options)
| undef
deriving DecidableEq, Repr

/-- Errors the plugin can throw: the explicit hostname Error, and the
TypeErrors raised by property access on undefined. -/
inductive PluginError where
| hostnameRequired
| typeError (msg : String)
deriving DecidableEq, Repr

/-- The configuration captured by the returned closure after successful
plugin construction (the local constants of lines 57-69). -/
structure Config where
  changefreq : Val
  hostname : String
  lastmod : Option Val
  omitExtension : Bool
  omitIndex : Bool
  output : String
  pattern : String
  omitPattern : Option String
  overrides : Option (List (String × Obj))
  priority : Val
  page_types : List (String × Obj)
  beautify : Bool
deriving DecidableEq, Repr

/-- The expression s || dflt on an optionally-present string option. -/
def jsOrStr (s : Option String) (dflt : String) : String :=
  match s with
  | some s' => if s' = "" then dflt else s'
  | none => dflt

/-- Plugin construction (lines 39-69): normalize a bare string to an
options object, throw when hostname is falsy, then resolve the local
configuration constants. Reading opts.page_types.default.changefreq on
line 58 throws a TypeError when page_types is absent or has no default
entry; line 68 reads the (misspelled) proirity property of the default
page type when opts.priority is a valid number. -/
def plugin (input : OptsInput) : Except PluginError Config :=
  let opts : Options :=
    match input with
    | .undef => {}
    | .str s => { hostname := some s }
    | .obj o => o
  if opts.hostname = none ∨ opts.hostname = some "" then
    .error .hostnameRequired
  else
    match opts.page_types with
    | none => .error (.typeError "Cannot read properties of undefined (reading default)")
    | some pts =>
      match alistGet pts "default" with
      | none => .error (.typeError "Cannot read properties of undefined (reading changefreq)")
      | some dflt =>
        .ok {
          changefreq := jsOr (jsGet dflt "changefreq") (.vstr "weekly")
          hostname := opts.hostname.getD ""
          lastmod := opts.lastmod
          omitExtension := opts.omitExtension
          omitIndex := opts.omitIndex
          output := jsOrStr opts.output "sitemap.xml"
          pattern := jsOrStr opts.pattern "**/*.html"
          omitPattern :=
            match opts.omitPattern with
            | some s => if s = "" then none else some s
            | none => none
          overrides := opts.overrides
          priority :=
            match opts.priority with
            | none => .vnum qHalf
            | some _ => jsGet dflt "proirity"
          page_types := pts
          beautify := opts.beautify }

/-- The inclusion check (lines 87-109). gm models the truthiness of
match(file, pat)[0] for the external multimatch collaborator. -/
def check (gm : String → String → Bool) (cfg : Config) (file : String)
    (fm : Frontmatter) : Bool :=
  if ¬ gm file cfg.pattern then false
  else if (match cfg.omitPattern with
           | some op => gm file op
           | none => false) then false
  else if truthy (optVal fm.priv) then false
  else true

/-- buildUrl (lines 112-133). -/
def buildUrl (omitIndex omitExtension : Bool) (file : String)
    (fm : Frontmatter) : String :=
  let normalizedFile := slash file
  match fm.canonical with
  | some (.vstr c) => c
  | _ =>
    if omitIndex && basename normalizedFile = "index.html" then
      chompRight normalizedFile "index.html"
    else if omitExtension then
      chompRight normalizedFile (extname normalizedFile)
    else normalizedFile

/-- Lines 144-148: write frontmatter.lastmod from date when that
property exists, else from stats.mtime; reading mtime of an absent
stats object throws a TypeError. -/
def resolveLastmod (fm : Frontmatter) : Except PluginError Frontmatter :=
  if fm.date.isSome then .ok { fm with lastmod := fm.date }
  else
    match fm.stats with
    | none => .error (.typeError "Cannot read properties of undefined (reading mtime)")
    | some st => .ok { fm with lastmod := some (optVal st.mtime) }

/-- Lines 156-160: when the file names a page type known to
opts.page_types, overwrite frontmatter changefreq and priority with that
category's values. -/
def applyPageType (page_types : List (String × Obj)) (fm : Frontmatter) :
    Frontmatter :=
  match fm.page_type with
  | none => fm
  | some pt =>
    match alistGet page_types (jsToPropKey pt) with
    | none => fm
    | some ptObj =>
      { fm with
        changefreq := some (jsGet ptObj "changefreq")
        priority := some (jsGet ptObj "priority") }

/-- Lines 162-168: the initial entry from changefreq, priority, lastmod
with global fallbacks, keeping only truthy values (pickby). -/
def buildEntry0 (cfg : Config) (fm : Frontmatter) : Obj :=
  ([("changefreq", jsOr (optVal fm.changefreq) cfg.changefreq),
    ("priority", jsOr (optVal fm.priority) cfg.priority),
    ("lastmod", jsOr (optVal fm.lastmod) (optVal cfg.lastmod))]).filter
    fun kv => truthy kv.2

/-- Lines 170-176: merge the path-keyed override record, if any. -/
def applyOverrides (overrides : Option (List (String × Obj)))
    (file : String) (e : Obj) : Obj :=
  match overrides with
  | some ovs =>
    match alistGet ovs file with
    | some ov => mergeObj e ov
    | none => e
  | none => e

/-- Lines 179-181: normalize an existing lastmod key to its UTC string. -/
def normalizeLastmod (e : Obj) : Obj :=
  if e.hasKey "lastmod" then
    e.set "lastmod" (.vstr (jsToUTCString (jsNewDate (jsGet e "lastmod"))))
  else e

/-- Lines 162-186: the full entry for a file that passed the check,
given its mutated frontmatter: initial pickby entry, overrides merge,
lastmod normalization, url, then the frontmatter sitemap merge. -/
def buildFullEntry (cfg : Config) (file : String) (fm : Frontmatter) : Obj :=
  let e1 := applyOverrides cfg.overrides file (buildEntry0 cfg fm)
  let e2 := normalizeLastmod e1
  let e3 := e2.set "url" (.vstr (buildUrl cfg.omitIndex cfg.omitExtension file fm))
  match fm.sitemap with
  | some sm => mergeObj e3 sm
  | none => e3

/-- One iteration of the main loop (lines 135-190) for a single file:
either the file is skipped (frontmatter unchanged, no entry), or its
frontmatter is mutated and an entry produced, or a TypeError propagates. -/
def processOne (gm : String → String → Bool) (cfg : Config) (file : String)
    (fm : Frontmatter) : Except PluginError (Frontmatter × Option Obj) :=
  if check gm cfg file fm then
    (resolveLastmod fm).map fun fm1 =>
      let fm2 := applyPageType cfg.page_types fm1
      (fm2, some (buildFullEntry cfg file fm2))
  else .ok (fm, none)

/-- The main loop over the file set in iteration order, returning the
mutated file records and the links list. The subsequent serialization
and the write of the output file are external collaborators and are not
modelled. -/
def runPlugin (gm : String → String → Bool) (cfg : Config) :
    List (String × Frontmatter) →
    Except PluginError (List (String × Frontmatter) × List Obj)
| [] => .ok ([], [])
| p :: rest =>
  match processOne gm cfg p.1 p.2 with
  | .error e => .error e
  | .ok (fm', oe) =>
    match runPlugin gm cfg rest with
    | .error e => .error e
    | .ok (fs, links) =>
      .ok ((p.1, fm') :: fs,
           match oe with
           | some e => e :: links
           | none => links)

/-- The value frontmatter.lastmod is assigned on lines 144-148 when no
TypeError occurs: the date property when present, else the mtime read
from a present stats object; none when both date and stats are absent
(the throwing case). -/
def lastmodSource (fm : Frontmatter) : Option Val :=
  if fm.date.isSome then fm.date
  else
    match fm.stats with
    | some st => some (optVal st.mtime)
    | none => none

/-- Does the frontmatter carry a string-typed canonical value (the
typeof test on line 117)? -/
def isStrCanonical : Option Val → Bool
| some (.vstr _) => true
| _ => false

/-- Extraction of the produced sitemap-entry field k from a single-file
processing result. -/
def entryGet (r : Except PluginError (Frontmatter × Option Obj))
    (k : String) : Option Val :=
  match r with
  | .ok (_, some e) => e.get k
  | _ => none

/-- The entry produced for one file, if any. -/
def entryOf (gm : String → String → Bool) (cfg : Config) (file : String)
    (fm : Frontmatter) : Option Obj :=
  match processOne gm cfg file fm with
  | .ok (_, some e) => some e
  | _ => none

/-! Sample inputs used by witnesses and counterexamples. -/

/-- A glob matcher that accepts every path. -/
def gmAll : String → String → Bool := fun _ _ => true

/-- A baseline configuration with all documented defaults. -/
def cfgBase : Config :=
  { changefreq := .vstr "weekly"
    hostname := "https://example.com"
    lastmod := none
    omitExtension := false
    omitIndex := false
    output := "sitemap.xml"
    pattern := "**/*.html"
    omitPattern := none
    overrides := none
    priority := .vnum qHalf
    page_types := [("default", [])]
    beautify := false }

/-- The frontmatter record left in the file set for a file after its
loop iteration (the input record itself when the iteration skipped or
threw). -/
def fmAfter (gm : String → String → Bool) (cfg : Config) (file : String)
    (fm : Frontmatter) : Frontmatter :=
  match processOne gm cfg file fm with
  | .ok (fm', _) => fm'
  | .error _ => fm

/-- A frontmatter record with no properties at all. -/
def fmEmpty : Frontmatter := {}

/-- A frontmatter record carrying only a filesystem mtime. -/
def fmStats : Frontmatter := { stats := some ⟨some (.vdate 1622505600000)⟩ }

/-- Configuration with a path-keyed override: priority 0.9 for
post.html. -/
def cfgC1 : Config :=
  { cfgBase with overrides := some [("post.html", [("priority", .vnum qNineTenths)])] }

/-- Frontmatter whose sitemap override map also sets priority (0.3). -/
def fmC1 : Frontmatter :=
  { date := some (.vstr "2021-06-01"),
    sitemap := some [("priority", .vnum qThreeTenths)] }

/-- Frontmatter whose sitemap override map supplies lastmod as the raw
string 2021-06-01. -/
def fmC5 : Frontmatter :=
  { date := some (.vdate 0),
    sitemap := some [("lastmod", .vstr "2021-06-01")] }

/-- Options with a valid numeric priority (0.9) and a page_types record
whose default category has changefreq daily and priority 0.7. -/
def optsC7 : Options :=
  { hostname := some "h", priority := some qNineTenths,
    page_types := some [("default",
      [("changefreq", .vstr "daily"), ("priority", .vnum qSevenTenths)])] }

/-- The configuration the code derives from optsC7. -/
def cfgC7 : Config :=
  { changefreq := .vstr "daily"
    hostname := "h"
    lastmod := none
    omitExtension := false
    omitIndex := false
    output := "sitemap.xml"
    pattern := "**/*.html"
    omitPattern := none
    overrides := none
    priority := .vundefined
    page_types := [("default",
      [("changefreq", .vstr "daily"), ("priority", .vnum qSevenTenths)])]
    beautify := false }

/-- Configuration whose overrides add an extra key for p.html. -/
def cfgC1w : Config :=
  { cfgBase with overrides := some [("p.html", [("extra", .vstr "x")])] }

/-- Frontmatter with a date and a sitemap map setting priority. -/
def fmC1w : Frontmatter :=
  { date := some (.vstr "2021-06-01"),
    sitemap := some [("priority", .vnum qThreeTenths)] }

/-- The mutated frontmatter produced for fmC1w. -/
def fmC1wRes : Frontmatter :=
  { fmC1w with lastmod := some (.vstr "2021-06-01") }

/-- The entry produced for fmC1w under cfgC1w at path p.html. -/
def entryC1w : Obj :=
  [("changefreq", .vstr "weekly"),
   ("priority", .vnum qThreeTenths),
   ("lastmod", .vstr "Tue, 01 Jun 2021 00:00:00 GMT"),
   ("extra", .vstr "x"),
   ("url", .vstr "p.html")]

/-- Frontmatter with a date and a sitemap map supplying a raw lastmod. -/
def fmC5w : Frontmatter :=
  { date := some (.vstr "2021-06-01"),
    sitemap := some [("lastmod", .vstr "sitemap-raw")] }

/-- The mutated frontmatter produced for fmC5w. -/
def fmC5wRes : Frontmatter :=
  { fmC5w with lastmod := some (.vstr "2021-06-01") }

/-- The entry produced for fmC5w under cfgBase at path q.html. -/
def entryC5w : Obj :=
  [("changefreq", .vstr "weekly"),
   ("priority", .vnum qHalf),
   ("lastmod", .vstr "sitemap-raw"),
   ("url", .vstr "q.html")]

/-- Configuration with a blog page type (changefreq daily, priority
0.8). -/
def cfgC9w : Config :=
  { cfgBase with page_types :=
      [("default", []),
       ("blog", [("changefreq", .vstr "daily"), ("priority", .vnum qFourFifths)])] }

/-- Frontmatter naming the blog page type, with an mtime. -/
def fmC9w : Frontmatter :=
  { page_type := some (.vstr "blog"), stats := some ⟨some (.vdate 0)⟩ }

/-- The mutated frontmatter produced for fmC9w under cfgC9w. -/
def fmC9wRes : Frontmatter :=
  { fmC9w with
    changefreq := some (.vstr "daily")
    priority := some (.vnum qFourFifths)
    lastmod := some (.vdate 0) }

/-- The entry produced for fmC9w under cfgC9w at path b.html. -/
def entryC9w : Obj :=
  [("changefreq", .vstr "daily"),
   ("priority", .vnum qFourFifths),
   ("lastmod", .vstr "Thu, 01 Jan 1970 00:00:00 GMT"),
   ("url", .vstr "b.html")]

/-- A frontmatter record marked private. -/
def fmPriv : Frontmatter := { priv := some (.vbool true) }

/-- A two-file file set: one included file with an mtime, one private
file. -/
def filesC8w : List (String × Frontmatter) :=
  [("a.html", fmStats), ("b.html", fmPriv)]

/-- A frontmatter record with a stats object that lacks mtime: no
changefreq, priority or lastmod from any per-file source. -/
def fmNoMeta : Frontmatter := { stats := some ⟨none⟩ }

/-- The mutated frontmatter produced for fmNoMeta. -/
def fmNoMetaRes : Frontmatter := { fmNoMeta with lastmod := some .vundefined }

/-- The entry produced for fmNoMeta under cfgBase at path page.html. -/
def entryC4w : Obj :=
  [("changefreq", .vstr "weekly"),
   ("priority", .vnum qHalf),
   ("url", .vstr "page.html")]

/-! Helper lemmas about the object model. -/

theorem qHalf_eq : qHalf = 1 / 2 := by
  rw [qHalf, Rat.mk'_eq_divInt, Rat.divInt_eq_div]
  norm_num

theorem qNineTenths_eq : qNineTenths = 9 / 10 := by
  rw [qNineTenths, Rat.mk'_eq_divInt, Rat.divInt_eq_div]
  norm_num

theorem qThreeTenths_eq : qThreeTenths = 3 / 10 := by
  rw [qThreeTenths, Rat.mk'_eq_divInt, Rat.divInt_eq_div]
  norm_num

theorem qSevenTenths_eq : qSevenTenths = 7 / 10 := by
  rw [qSevenTenths, Rat.mk'_eq_divInt, Rat.divInt_eq_div]
  norm_num

theorem qFourFifths_eq : qFourFifths = 8 / 10 := by
  rw [qFourFifths, Rat.mk'_eq_divInt, Rat.divInt_eq_div]
  norm_num

theorem Obj.get_set_self (o : Obj) (k : String) (v : Val) :
    (o.set k v).get k = some v := by
  induction o with
  | nil => simp [Obj.set, Obj.get, alistGet]
  | cons hd tl ih =>
    obtain ⟨k1, v1⟩ := hd
    by_cases h : k1 = k
    · simp [Obj.set, h, Obj.get, alistGet]
    · simpa [Obj.set, h, Obj.get, alistGet] using ih

theorem Obj.get_set_ne (o : Obj) (k k' : String) (v : Val) (h : k' ≠ k) :
    (o.set k v).get k' = o.get k' := by
  induction o with
  | nil =>
    simp only [Obj.set, Obj.get, alistGet]
    rw [if_neg fun hc => h hc.symm]
  | cons hd tl ih =>
    obtain ⟨k1, v1⟩ := hd
    by_cases hh : k1 = k
    · simp only [Obj.set, if_pos hh, Obj.get, alistGet]
      rw [if_neg fun hc => h hc.symm, if_neg (by rw [hh]; exact fun hc => h hc.symm)]
    · simp only [Obj.set, if_neg hh, Obj.get, alistGet]
      by_cases hk' : k1 = k'
      · rw [if_pos hk', if_pos hk']
      · rw [if_neg hk', if_neg hk']
        exact ih

theorem alistGet_none_of_not_mem {α : Type} (src : List (String × α))
    (k : String) (h : k ∉ src.map Prod.fst) : alistGet src k = none := by
  induction src with
  | nil => rfl
  | cons hd tl ih =>
    obtain ⟨k1, v1⟩ := hd
    simp only [List.map_cons, List.mem_cons] at h
    push_neg at h
    simp [alistGet, Ne.symm h.1, ih h.2]

theorem mergeObj_get_not_mem (e : Obj) (src : Obj) (k : String)
    (h : alistGet src k = none) : (mergeObj e src).get k = e.get k := by
  induction src generalizing e with
  | nil => rfl
  | cons hd tl ih =>
    obtain ⟨k1, v1⟩ := hd
    simp only [alistGet] at h
    by_cases hk : k1 = k
    · simp [hk] at h
    · have hstep : mergeObj e ((k1, v1) :: tl) = mergeObj (e.set k1 v1) tl := rfl
      rw [hstep, ih _ (by simpa [hk] using h),
        Obj.get_set_ne _ _ _ _ (Ne.symm hk)]

theorem mergeObj_get_nodup (e : Obj) (src : Obj) (k : String) (v : Val)
    (hnd : (src.map Prod.fst).Nodup) (h : alistGet src k = some v) :
    (mergeObj e src).get k = some v := by
  induction src generalizing e with
  | nil => simp [alistGet] at h
  | cons hd tl ih =>
    obtain ⟨k1, v1⟩ := hd
    simp only [List.map_cons, List.nodup_cons] at hnd
    by_cases hk : k1 = k
    · subst hk
      have hv : v1 = v := by simpa [alistGet] using h
      have htl : alistGet tl k1 = none :=
        alistGet_none_of_not_mem tl k1 hnd.1
      have hstep : mergeObj e ((k1, v1) :: tl) = mergeObj (e.set k1 v1) tl := rfl
      rw [hstep, mergeObj_get_not_mem _ _ _ htl, Obj.get_set_self, hv]
    · have htl : alistGet tl k = some v := by simpa [alistGet, hk] using h
      have hstep : mergeObj e ((k1, v1) :: tl) = mergeObj (e.set k1 v1) tl := rfl
      rw [hstep, ih _ hnd.2 htl]

/-! Helper lemmas about the per-file pipeline. -/

theorem resolveLastmod_ok (fm fm1 : Frontmatter)
    (h : resolveLastmod fm = .ok fm1) :
    fm1 = { fm with lastmod := lastmodSource fm } := by
  unfold resolveLastmod lastmodSource at *
  by_cases hd : fm.date.isSome
  · simp only [hd, if_true, Except.ok.injEq] at h ⊢
    exact h.symm
  · simp only [hd, if_false, Bool.false_eq_true] at h ⊢
    cases hs : fm.stats with
    | none => rw [hs] at h; exact absurd h (by simp)
    | some st => rw [hs] at h; simp only [Except.ok.injEq] at h; exact h.symm

theorem resolveLastmod_isOk (fm : Frontmatter)
    (h : fm.date.isSome ∨ fm.stats.isSome) :
    resolveLastmod fm = .ok { fm with lastmod := lastmodSource fm } := by
  unfold resolveLastmod lastmodSource
  by_cases hd : fm.date.isSome
  · simp [hd]
  · cases hs : fm.stats with
    | none => rw [hs] at h; simp [hd] at h
    | some st => simp [hd, hs]

theorem resolveLastmod_ne_hostname (fm : Frontmatter) :
    resolveLastmod fm ≠ .error .hostnameRequired := by
  unfold resolveLastmod
  by_cases hd : fm.date.isSome
  · simp [hd]
  · cases hs : fm.stats <;> simp [hd, hs]

theorem applyPageType_frame (pts : List (String × Obj)) (fm : Frontmatter) :
    (applyPageType pts fm).priv = fm.priv ∧
    (applyPageType pts fm).canonical = fm.canonical ∧
    (applyPageType pts fm).date = fm.date ∧
    (applyPageType pts fm).stats = fm.stats ∧
    (applyPageType pts fm).page_type = fm.page_type ∧
    (applyPageType pts fm).lastmod = fm.lastmod ∧
    (applyPageType pts fm).sitemap = fm.sitemap := by
  unfold applyPageType
  cases hp : fm.page_type with
  | none => simp [hp]
  | some pt => cases hg : alistGet pts (jsToPropKey pt) <;> simp [hp, hg]

theorem applyPageType_none (pts : List (String × Obj)) (fm : Frontmatter)
    (hpt : fm.page_type = none) : applyPageType pts fm = fm := by
  simp only [applyPageType, hpt]

theorem applyPageType_unknown (pts : List (String × Obj)) (fm : Frontmatter)
    (pt : Val) (hpt : fm.page_type = some pt)
    (hget : alistGet pts (jsToPropKey pt) = none) :
    applyPageType pts fm = fm := by
  simp only [applyPageType, hpt, hget]

theorem applyPageType_hit (pts : List (String × Obj)) (fm : Frontmatter)
    (pt : Val) (ptObj : Obj) (hpt : fm.page_type = some pt)
    (hget : alistGet pts (jsToPropKey pt) = some ptObj) :
    applyPageType pts fm =
      { fm with
        changefreq := some (jsGet ptObj "changefreq")
        priority := some (jsGet ptObj "priority") } := by
  simp only [applyPageType, hpt, hget]

theorem processOne_ok_some (gm : String → String → Bool) (cfg : Config)
    (file : String) (fm fm' : Frontmatter) (e : Obj)
    (h : processOne gm cfg file fm = .ok (fm', some e)) :
    check gm cfg file fm = true ∧
    fm' = applyPageType cfg.page_types { fm with lastmod := lastmodSource fm } ∧
    e = buildFullEntry cfg file fm' := by
  unfold processOne at h
  by_cases hc : check gm cfg file fm
  · refine ⟨hc, ?_⟩
    rw [if_pos hc] at h
    cases hr : resolveLastmod fm with
    | error err => rw [hr] at h; exact absurd h (by simp [Except.map])
    | ok fm1 =>
      rw [hr] at h
      simp only [Except.map, Except.ok.injEq, Prod.mk.injEq,
        Option.some.injEq] at h
      obtain ⟨h1, h2⟩ := h
      rw [← resolveLastmod_ok fm fm1 hr]
      exact ⟨h1.symm, by rw [← h1, ← h2]⟩
  · rw [if_neg hc] at h
    simp at h

theorem processOne_ok_of_check (gm : String → String → Bool) (cfg : Config)
    (file : String) (fm : Frontmatter)
    (hc : check gm cfg file fm = true)
    (hs : fm.date.isSome ∨ fm.stats.isSome) :
    processOne gm cfg file fm =
      .ok (applyPageType cfg.page_types { fm with lastmod := lastmodSource fm },
        some (buildFullEntry cfg file
          (applyPageType cfg.page_types { fm with lastmod := lastmodSource fm }))) := by
  unfold processOne
  rw [if_pos hc, resolveLastmod_isOk fm hs]
  rfl

theorem processOne_skip (gm : String → String → Bool) (cfg : Config)
    (file : String) (fm : Frontmatter)
    (hc : check gm cfg file fm = false) :
    processOne gm cfg file fm = .ok (fm, none) := by
  unfold processOne
  rw [hc]
  rfl

theorem processOne_ne_hostname (gm : String → String → Bool) (cfg : Config)
    (file : String) (fm : Frontmatter) :
    processOne gm cfg file fm ≠ .error .hostnameRequired := by
  unfold processOne
  by_cases hc : check gm cfg file fm
  · rw [if_pos hc]
    cases hr : resolveLastmod fm with
    | error err =>
      have := resolveLastmod_ne_hostname fm
      rw [hr] at this
      simp only [Except.map]
      intro hcontra
      exact this (by simpa using hcontra)
    | ok fm1 => simp [Except.map]
  · rw [if_neg hc]
    simp

theorem normalizeLastmod_get (e : Obj) (v : Val)
    (h : (normalizeLastmod e).get "lastmod" = some v) :
    v = .vstr (jsToUTCString (jsNewDate (jsGet e "lastmod"))) := by
  unfold normalizeLastmod at h
  by_cases hk : e.hasKey "lastmod"
  · rw [if_pos hk, Obj.get_set_self] at h
    exact (Option.some.injEq _ _ ▸ h).symm
  · rw [if_neg hk] at h
    unfold Obj.hasKey at hk
    have hnone : e.get "lastmod" = none := by
      cases hcase : e.get "lastmod" with
      | none => rfl
      | some w => rw [hcase] at hk; simp at hk
    rw [hnone] at h
    exact absurd h (by simp)

theorem processOne_eq_ok (gm : String → String → Bool) (cfg : Config)
    (file : String) (fm : Frontmatter)
    (h : check gm cfg file fm = true → fm.date.isSome ∨ fm.stats.isSome) :
    processOne gm cfg file fm =
      .ok (fmAfter gm cfg file fm, entryOf gm cfg file fm) := by
  unfold fmAfter entryOf
  by_cases hc : check gm cfg file fm
  · rw [processOne_ok_of_check gm cfg file fm hc (h hc)]
  · rw [processOne_skip gm cfg file fm (by simpa using hc)]

theorem runPlugin_ok_of_safe (gm : String → String → Bool) (cfg : Config) :
    ∀ files : List (String × Frontmatter),
    (∀ p ∈ files, check gm cfg p.1 p.2 = true →
        p.2.date.isSome ∨ p.2.stats.isSome) →
    runPlugin gm cfg files =
      .ok (files.map fun p => (p.1, fmAfter gm cfg p.1 p.2),
           files.filterMap fun p => entryOf gm cfg p.1 p.2)
| [], _ => rfl
| p :: rest, hsafe => by
  have hp := processOne_eq_ok gm cfg p.1 p.2 (hsafe p (List.mem_cons_self p rest))
  have hrest := runPlugin_ok_of_safe gm cfg rest
    (fun q hq => hsafe q (List.mem_cons_of_mem _ hq))
  simp only [runPlugin, hp, hrest, List.map_cons, List.filterMap_cons]
  cases entryOf gm cfg p.1 p.2 <;> simp

theorem runPlugin_ne_hostname (gm : String → String → Bool) (cfg : Config) :
    ∀ files : List (String × Frontmatter),
    runPlugin gm cfg files ≠ .error .hostnameRequired
| [] => by simp [runPlugin]
| p :: rest => by
  have h1 := processOne_ne_hostname gm cfg p.1 p.2
  have h2 := runPlugin_ne_hostname gm cfg rest
  simp only [runPlugin]
  cases hp : processOne gm cfg p.1 p.2 with
  | error e =>
    rw [hp] at h1
    intro hc
    simp only [Except.error.injEq] at hc
    exact h1 (by rw [hc])
  | ok r =>
    obtain ⟨fm', oe⟩ := r
    cases hr : runPlugin gm cfg rest with
    | error e =>
      rw [hr] at h2
      intro hc
      simp only [Except.error.injEq] at hc
      exact h2 (by rw [hc])
    | ok r2 =>
      obtain ⟨fs, links⟩ := r2
      cases oe <;> simp

theorem resolveLastmod_ok_sources (fm fm1 : Frontmatter)
    (h : resolveLastmod fm = .ok fm1) :
    fm.date.isSome ∨ fm.stats.isSome := by
  unfold resolveLastmod at h
  by_cases hd : fm.date.isSome
  · exact Or.inl hd
  · rw [if_neg hd] at h
    cases hs : fm.stats with
    | none => rw [hs] at h; exact absurd h (by simp)
    | some st => exact Or.inr rfl

theorem processOne_ok_sources (gm : String → String → Bool) (cfg : Config)
    (file : String) (fm fm' : Frontmatter) (e : Obj)
    (h : processOne gm cfg file fm = .ok (fm', some e)) :
    fm.date.isSome ∨ fm.stats.isSome := by
  unfold processOne at h
  by_cases hc : check gm cfg file fm
  · rw [if_pos hc] at h
    cases hr : resolveLastmod fm with
    | error err => rw [hr] at h; exact absurd h (by simp [Except.map])
    | ok fm1 => exact resolveLastmod_ok_sources fm fm1 hr
  · rw [if_neg hc] at h
    simp at h

theorem lastmodSource_isSome (fm : Frontmatter)
    (h : fm.date.isSome ∨ fm.stats.isSome) :
    (lastmodSource fm).isSome = true := by
  unfold lastmodSource
  by_cases hd : fm.date.isSome
  · simp [hd]
  · cases hs : fm.stats with
    | none => rw [hs] at h; simp [hd] at h
    | some st => simp [hd, hs]

theorem applyOverrides_hit (ovs : List (String × Obj)) (file : String)
    (e ov : Obj) (h : alistGet ovs file = some ov) :
    applyOverrides (some ovs) file e = mergeObj e ov := by
  simp only [applyOverrides, h]

theorem normalizeLastmod_get_ne (e : Obj) (k : String) (h : k ≠ "lastmod") :
    (normalizeLastmod e).get k = e.get k := by
  unfold normalizeLastmod
  by_cases hk : e.hasKey "lastmod"
  · rw [if_pos hk, Obj.get_set_ne _ _ _ _ h]
  · rw [if_neg hk]

theorem buildEntry0_get_lastmod (cfg : Config) (fm : Frontmatter) :
    (buildEntry0 cfg fm).get "lastmod" =
      if truthy (jsOr (optVal fm.lastmod) (optVal cfg.lastmod)) then
        some (jsOr (optVal fm.lastmod) (optVal cfg.lastmod))
      else none := by
  have hne1 : ("changefreq" : String) ≠ "lastmod" := by decide
  have hne2 : ("priority" : String) ≠ "lastmod" := by decide
  unfold buildEntry0 Obj.get
  by_cases h1 : truthy (jsOr (optVal fm.changefreq) cfg.changefreq) <;>
    by_cases h2 : truthy (jsOr (optVal fm.priority) cfg.priority) <;>
    by_cases h3 : truthy (jsOr (optVal fm.lastmod) (optVal cfg.lastmod)) <;>
    simp [h1, h2, h3, alistGet, hne1, hne2]

/-- Helper for C2: with no string canonical, buildUrl is the
omitIndex / omitExtension cascade over the slash-normalized path. -/
theorem buildUrl_no_canonical (oi oe : Bool) (file : String)
    (fm : Frontmatter) (h : isStrCanonical fm.canonical = false) :
    buildUrl oi oe file fm =
      (if oi && basename (slash file) = "index.html" then
        chompRight (slash file) "index.html"
      else if oe then chompRight (slash file) (extname (slash file))
      else slash file) := by
  unfold buildUrl
  cases hcv : fm.canonical with
  | none => rfl
  | some v =>
    cases v with
    | vstr s => rw [hcv] at h; exact absurd h (by simp [isStrCanonical])
    | vnum q => rfl
    | vbool b => rfl
    | vdate ms => rfl
    | vundefined => rfl

/-! Claim theorems. -/

/-- C3: a configuration whose hostname is absent or empty makes plugin
construction throw the hostname error; this happens at setup time, since
construction is a function of the options alone and the file-processing
stage (runPlugin) can never produce this error; and no configuration
with a non-empty hostname raises it. -/
theorem c3_missing_hostname_fatal :
    (∀ o : Options, o.hostname = none ∨ o.hostname = some "" →
        plugin (.obj o) = .error .hostnameRequired) ∧
    plugin .undef = .error .hostnameRequired ∧
    plugin (.str "") = .error .hostnameRequired ∧
    (∀ o : Options, o.hostname ≠ none → o.hostname ≠ some "" →
        plugin (.obj o) ≠ .error .hostnameRequired) ∧
    (∀ s : String, s ≠ "" → plugin (.str s) ≠ .error .hostnameRequired) ∧
    (∀ (gm : String → String → Bool) (cfg : Config)
        (files : List (String × Frontmatter)),
        runPlugin gm cfg files ≠ .error .hostnameRequired) := by
  refine ⟨?_, rfl, rfl, ?_, ?_, runPlugin_ne_hostname⟩
  · intro o ho
    unfold plugin
    rw [if_pos ho]
  · intro o h1 h2
    unfold plugin
    rw [if_neg (by rintro (h | h); exacts [h1 h, h2 h])]
    cases hpt : o.page_types with
    | none => simp
    | some pts => cases hal : alistGet pts "default" <;> simp [hal]
  · intro s hs
    unfold plugin
    rw [if_neg (by rintro (h | h); exacts [Option.noConfusion h, hs (Option.some.inj h)])]
    simp

/-- C3 witness: a concrete empty configuration throws the hostname
error, and a concrete configuration with a non-empty hostname does not. -/
theorem c3_witness :
    plugin (.obj {}) = .error .hostnameRequired ∧
    plugin (.obj { hostname := some "https://example.com", page_types := some [("default", [])] }) ≠ .error .hostnameRequired :=
  ⟨c3_missing_hostname_fatal.1 {} (Or.inl rfl),
   c3_missing_hostname_fatal.2.2.2.1 _ (by decide) (by decide)⟩

/-- C6: the claim that a bare hostname string configuration succeeds
with documented defaults is false on the code. Construction with a bare
hostname string passes the hostname check but then reads
opts.page_types.default.changefreq on line 58, and page_types is absent
from the wrapped object, so construction throws a TypeError; indeed no
bare-string configuration can ever construct successfully. -/
theorem c6_bare_hostname_string_throws :
    plugin (.str "https://example.com") =
      .error (.typeError "Cannot read properties of undefined (reading default)") ∧
    ∀ (s : String) (cfg : Config), plugin (.str s) ≠ .ok cfg := by
  constructor
  · rfl
  · intro s cfg
    unfold plugin
    by_cases hs : s = ""
    · rw [if_pos (Or.inr (by rw [hs]))]
      simp
    · rw [if_neg (by rintro (h | h); exacts [Option.noConfusion h, hs (Option.some.inj h)])]
      simp

/-- C7: the claim that the global priority fallback is the configured
priority option when it is a valid number is false on the code. With a
valid numeric priority option 0.9 the code evaluates
opts.page_types.default.proirity (line 68, misspelled), which is absent,
so the fallback becomes undefined: neither the configured 0.9 nor 0.5
nor even the default category priority 0.7, and a file with no per-file
priority then gets no priority field at all in its entry. -/
theorem c7_priority_fallback_bug :
    optsC7.priority = some (9 / 10) ∧
    plugin (.obj optsC7) = .ok cfgC7 ∧
    cfgC7.priority = .vundefined ∧
    cfgC7.priority ≠ .vnum (9 / 10) ∧
    cfgC7.priority ≠ .vnum (1 / 2) ∧
    cfgC7.priority ≠ .vnum (7 / 10) ∧
    check gmAll cfgC7 "a.html" fmStats = true ∧
    entryGet (processOne gmAll cfgC7 "a.html" fmStats) "priority" = none := by
  refine ⟨?_, rfl, rfl, by decide, by decide, by decide, rfl, rfl⟩
  rw [show optsC7.priority = some qNineTenths from rfl, qNineTenths_eq]

/-- C8 counterexample: the claim that a file yields an entry if and only
if it passes the inclusion check is false as stated. This file passes
the check (pattern match, no omitPattern, not private) but has neither a
date nor a stats record, so processing throws and no entry at all is
produced. -/
theorem c8_counterexample :
    check gmAll cfgBase "a.html" fmEmpty = true ∧
    runPlugin gmAll cfgBase [("a.html", fmEmpty)] =
      .error (.typeError "Cannot read properties of undefined (reading mtime)") :=
  ⟨rfl, rfl⟩

/-- C8 (amended): provided every file that passes the inclusion check
carries a date or a stats record, the run succeeds and produces, in
file-set iteration order, exactly the entries of the passing files: a
file contributes an entry if and only if it matches the pattern, does
not match omitPattern (when provided) and is not private -- which is
exactly the check. -/
theorem c8_entry_iff_inclusion (gm : String → String → Bool) (cfg : Config)
    (files : List (String × Frontmatter))
    (hsafe : ∀ p ∈ files, check gm cfg p.1 p.2 = true →
        p.2.date.isSome ∨ p.2.stats.isSome) :
    runPlugin gm cfg files =
      .ok (files.map fun p => (p.1, fmAfter gm cfg p.1 p.2),
           files.filterMap fun p => entryOf gm cfg p.1 p.2) ∧
    ∀ p ∈ files, (entryOf gm cfg p.1 p.2).isSome = check gm cfg p.1 p.2 := by
  constructor
  · exact runPlugin_ok_of_safe gm cfg files hsafe
  · intro p hp
    by_cases hc : check gm cfg p.1 p.2
    · rw [hc]
      unfold entryOf
      rw [processOne_ok_of_check gm cfg p.1 p.2 hc (hsafe p hp hc)]
      rfl
    · have hcf : check gm cfg p.1 p.2 = false := by simpa using hc
      rw [hcf]
      unfold entryOf
      rw [processOne_skip gm cfg p.1 p.2 hcf]
      rfl

/-- C8 witness: the amended statement applied to a concrete two-file
set (one included file with an mtime, one private file). -/
theorem c8_witness :
    runPlugin gmAll cfgBase filesC8w =
      .ok (filesC8w.map fun p => (p.1, fmAfter gmAll cfgBase p.1 p.2),
           filesC8w.filterMap fun p => entryOf gmAll cfgBase p.1 p.2) ∧
    ∀ p ∈ filesC8w,
      (entryOf gmAll cfgBase p.1 p.2).isSome = check gmAll cfgBase p.1 p.2 :=
  c8_entry_iff_inclusion gmAll cfgBase filesC8w (by decide)

/-- C10: a file that passes the inclusion check but has neither a date
property nor a stats record makes processing throw the TypeError from
reading mtime of undefined (the file is neither skipped nor given an
entry); and when every file passing the check carries a date or a
filesystem mtime, the run completes without error. -/
theorem c10_missing_stats_throws :
    (∀ (gm : String → String → Bool) (cfg : Config) (file : String)
        (fm : Frontmatter), check gm cfg file fm = true → fm.date = none →
        fm.stats = none →
        processOne gm cfg file fm =
          .error (.typeError "Cannot read properties of undefined (reading mtime)")) ∧
    (∀ (gm : String → String → Bool) (cfg : Config)
        (files : List (String × Frontmatter)),
        (∀ p ∈ files, check gm cfg p.1 p.2 = true →
            p.2.date.isSome ∨ (p.2.stats.bind Stats.mtime).isSome) →
        runPlugin gm cfg files =
          .ok (files.map fun p => (p.1, fmAfter gm cfg p.1 p.2),
               files.filterMap fun p => entryOf gm cfg p.1 p.2)) := by
  constructor
  · intro gm cfg file fm hck hd hs
    unfold processOne
    rw [if_pos hck]
    unfold resolveLastmod
    rw [hd, hs]
    rfl
  · intro gm cfg files hsafe
    apply runPlugin_ok_of_safe
    intro p hp hck
    rcases hsafe p hp hck with h | h
    · exact Or.inl h
    · right
      cases hstats : p.2.stats with
      | none => rw [hstats] at h; simp at h
      | some st => rfl

/-- C1 counterexample: the claim that a path-keyed override is merged
last, after the frontmatter sitemap map, is false on the code. Here the
overrides record sets priority 0.9 and the file's sitemap map sets
priority 0.3; the sitemap map is merged last (line 186, after the
overrides merge on lines 170-176), so the final entry carries 0.3, not
the overrides value. -/
theorem c1_counterexample :
    check gmAll cfgC1 "post.html" fmC1 = true ∧
    cfgC1.overrides = some [("post.html", [("priority", .vnum (9 / 10))])] ∧
    fmC1.sitemap = some [("priority", .vnum (3 / 10))] ∧
    entryGet (processOne gmAll cfgC1 "post.html" fmC1) "priority" =
      some (.vnum (3 / 10)) ∧
    Val.vnum (3 / 10) ≠ .vnum (9 / 10) := by
  refine ⟨rfl, ?_, ?_, ?_, ?_⟩
  · rw [show cfgC1.overrides =
        some [("post.html", [(("priority" : String), Val.vnum qNineTenths)])] from rfl,
      qNineTenths_eq]
  · rw [show fmC1.sitemap =
        some [(("priority" : String), Val.vnum qThreeTenths)] from rfl,
      qThreeTenths_eq]
  · rw [show entryGet (processOne gmAll cfgC1 "post.html" fmC1) "priority" =
        some (Val.vnum qThreeTenths) from rfl, qThreeTenths_eq]
  · intro h
    exact absurd (Val.vnum.inj h) (by norm_num)

/-- C1 (amended): the path-keyed overrides record is merged into the
entry after the changefreq/priority/lastmod defaulting but before
lastmod normalization, URL computation and the frontmatter sitemap
merge. Hence (a) for any key in the file's sitemap map, the sitemap
value is what appears in the final entry, and (b) an overrides key
survives verbatim only when it is not url, not lastmod, and not listed
in the sitemap map. -/
theorem c1_overrides_merge_order (gm : String → String → Bool)
    (cfg : Config) (file : String) (fm fm' : Frontmatter) (e : Obj)
    (hrun : processOne gm cfg file fm = .ok (fm', some e)) :
    (∀ sm k v, fm'.sitemap = some sm → (sm.map Prod.fst).Nodup →
        alistGet sm k = some v → e.get k = some v) ∧
    (∀ ovs ov k v, cfg.overrides = some ovs → alistGet ovs file = some ov →
        (ov.map Prod.fst).Nodup → alistGet ov k = some v →
        k ≠ "url" → k ≠ "lastmod" →
        (∀ sm, fm'.sitemap = some sm → alistGet sm k = none) →
        e.get k = some v) := by
  obtain ⟨hck, hfm, he⟩ := processOne_ok_some gm cfg file fm fm' e hrun
  subst he
  constructor
  · intro sm k v hsm hnd hget
    simp only [buildFullEntry]
    rw [hsm]
    exact mergeObj_get_nodup _ _ _ _ hnd hget
  · intro ovs ov k v hovs hov hnd hget hurl hlm hsm
    have h1 : (applyOverrides cfg.overrides file (buildEntry0 cfg fm')).get k =
        some v := by
      rw [hovs, applyOverrides_hit ovs file _ ov hov]
      exact mergeObj_get_nodup _ _ _ _ hnd hget
    have h2 : (normalizeLastmod
        (applyOverrides cfg.overrides file (buildEntry0 cfg fm'))).get k =
        some v := by
      rw [normalizeLastmod_get_ne _ _ hlm]
      exact h1
    have h3 : ((normalizeLastmod
        (applyOverrides cfg.overrides file (buildEntry0 cfg fm'))).set "url"
        (.vstr (buildUrl cfg.omitIndex cfg.omitExtension file fm'))).get k =
        some v := by
      rw [Obj.get_set_ne _ _ _ _ hurl]
      exact h2
    simp only [buildFullEntry]
    cases hsm2 : fm'.sitemap with
    | none => exact h3
    | some sm =>
      rw [mergeObj_get_not_mem _ _ _ (hsm sm hsm2)]
      exact h3

/-- C1 witness: the amended statement applied to a concrete
configuration in which the override adds an extra key and the sitemap
map sets priority; the sitemap value and the non-conflicting override
key both appear in the final entry. -/
theorem c1_witness :
    Obj.get entryC1w "priority" = some (.vnum qThreeTenths) ∧
    Obj.get entryC1w "extra" = some (.vstr "x") := by
  have h := c1_overrides_merge_order gmAll cfgC1w "p.html" fmC1w fmC1wRes
    entryC1w rfl
  constructor
  · exact h.1 [("priority", .vnum qThreeTenths)] "priority" (.vnum qThreeTenths)
      rfl (by decide) rfl
  · exact h.2 [("p.html", [("extra", .vstr "x")])] [("extra", .vstr "x")]
      "extra" (.vstr "x") rfl rfl (by decide) rfl (by decide) (by decide)
      (fun sm hsm => by cases Option.some.inj hsm; rfl)

/-- C2: URL resolution precedence. A string canonical wins regardless
of the omit flags; otherwise with omitIndex enabled and basename
index.html the trailing index.html is chomped; otherwise with
omitExtension enabled the extension is chomped; otherwise the
slash-normalized path is used unchanged. -/
theorem c2_url_precedence (oi oe : Bool) (file : String) (fm : Frontmatter) :
    (∀ c, fm.canonical = some (.vstr c) → buildUrl oi oe file fm = c) ∧
    (isStrCanonical fm.canonical = false → oi = true →
        basename (slash file) = "index.html" →
        buildUrl oi oe file fm = chompRight (slash file) "index.html") ∧
    (isStrCanonical fm.canonical = false →
        ¬(oi = true ∧ basename (slash file) = "index.html") → oe = true →
        buildUrl oi oe file fm = chompRight (slash file) (extname (slash file))) ∧
    (isStrCanonical fm.canonical = false →
        ¬(oi = true ∧ basename (slash file) = "index.html") → oe = false →
        buildUrl oi oe file fm = slash file) := by
  have hcond : ∀ oi : Bool, ¬(oi = true ∧ basename (slash file) = "index.html") →
      (oi && basename (slash file) = "index.html") = false := by
    intro b hni
    cases b with
    | false => simp
    | true =>
      have hbn : basename (slash file) ≠ "index.html" := fun hx => hni ⟨rfl, hx⟩
      simp [hbn]
  refine ⟨?_, ?_, ?_, ?_⟩
  · intro c hc
    unfold buildUrl
    rw [hc]
  · intro h1 h2 h3
    rw [buildUrl_no_canonical oi oe file fm h1]
    rw [if_pos (by rw [h2, h3]; rfl)]
  · intro h1 hni h3
    rw [buildUrl_no_canonical oi oe file fm h1]
    rw [if_neg (by rw [hcond oi hni]; simp), if_pos h3]
  · intro h1 hni h3
    rw [buildUrl_no_canonical oi oe file fm h1]
    rw [if_neg (by rw [hcond oi hni]; simp), if_neg (by rw [h3]; simp)]

/-- C2 witness: the spec example: omitIndex with path blog/index.html
yields blog/, and the other cases at concrete inputs. -/
theorem c2_witness :
    buildUrl true false "blog/index.html" fmEmpty = "blog/" ∧
    buildUrl false true "about.html" fmEmpty = "about" ∧
    buildUrl true true "page.html" { canonical := some (.vstr "/custom") } = "/custom" := by
  refine ⟨?_, ?_, ?_⟩
  · have h := (c2_url_precedence true false "blog/index.html" fmEmpty).2.1
      rfl rfl (by decide)
    rw [h]
    decide
  · have h := (c2_url_precedence false true "about.html" fmEmpty).2.2.1
      rfl (by decide) rfl
    rw [h]
    decide
  · exact (c2_url_precedence true true "page.html"
      { canonical := some (.vstr "/custom") }).1 "/custom" rfl

/-- C4: a file with no changefreq, priority or lastmod from any
per-file source (no frontmatter values, no page type, a stats object
without mtime, no override, no sitemap map), under global defaults
changefreq weekly and priority one half and no global lastmod, produces
an entry with changefreq weekly, priority one half, and no lastmod key
at all. -/
theorem c4_global_defaults (gm : String → String → Bool) (cfg : Config)
    (file : String) (fm : Frontmatter)
    (hcf : cfg.changefreq = .vstr "weekly")
    (hpr : cfg.priority = .vnum (1 / 2))
    (hlm : cfg.lastmod = none) (hov : cfg.overrides = none)
    (hck : check gm cfg file fm = true)
    (hfc : fm.changefreq = none) (hfp : fm.priority = none)
    (hfd : fm.date = none) (hfs : fm.stats = some { mtime := none })
    (hpt : fm.page_type = none) (hsm : fm.sitemap = none) :
    (entryOf gm cfg file fm).isSome = true ∧
    ∀ fm' e, processOne gm cfg file fm = .ok (fm', some e) →
      e.get "changefreq" = some (.vstr "weekly") ∧
      e.get "priority" = some (.vnum (1 / 2)) ∧
      e.hasKey "lastmod" = false := by
  have hsrc : fm.date.isSome ∨ fm.stats.isSome := Or.inr (by rw [hfs]; rfl)
  constructor
  · unfold entryOf
    rw [processOne_ok_of_check gm cfg file fm hck hsrc]
    rfl
  · intro fm' e hrun
    obtain ⟨-, hfm, he⟩ := processOne_ok_some gm cfg file fm fm' e hrun
    subst he
    have hpr' : cfg.priority = .vnum qHalf := by rw [hpr, ← qHalf_eq]
    have hls : lastmodSource fm = some .vundefined := by
      unfold lastmodSource
      rw [hfd, hfs]
      rfl
    have hfmX : fm' = { fm with lastmod := some Val.vundefined } := by
      rw [hfm, applyPageType_none cfg.page_types _
        (show ({ fm with lastmod := lastmodSource fm } : Frontmatter).page_type =
          none from hpt), hls]
    have hfc' : fm'.changefreq = none := by rw [hfmX]; exact hfc
    have hfp' : fm'.priority = none := by rw [hfmX]; exact hfp
    have hlm' : fm'.lastmod = some Val.vundefined := by rw [hfmX]
    have hsm' : fm'.sitemap = none := by rw [hfmX]; exact hsm
    have hb : buildEntry0 cfg fm' =
        [("changefreq", Val.vstr "weekly"), ("priority", Val.vnum qHalf)] := by
      unfold buildEntry0
      rw [hcf, hpr', hlm, hfc', hfp', hlm']
      rfl
    simp only [buildFullEntry, hsm', hov, applyOverrides]
    rw [hb]
    exact ⟨rfl, by rw [← qHalf_eq]; rfl, rfl⟩

/-- C4 witness: the statement applied to the baseline configuration and
a concrete frontmatter record carrying only a stats object without an
mtime. -/
theorem c4_witness :
    Obj.get entryC4w "changefreq" = some (.vstr "weekly") ∧
    Obj.get entryC4w "priority" = some (.vnum (1 / 2)) ∧
    Obj.hasKey entryC4w "lastmod" = false :=
  (c4_global_defaults gmAll cfgBase "page.html" fmNoMeta
    rfl (by rw [show cfgBase.priority = Val.vnum qHalf from rfl, qHalf_eq])
    rfl rfl (by decide) rfl rfl rfl rfl rfl rfl).2
    fmNoMetaRes entryC4w rfl

/-- C5 counterexample: the claim that a lastmod resolved from any
source, including the file's raw sitemap override map, appears as an
HTTP-date string is false on the code. Here the sitemap map supplies
lastmod "2021-06-01"; since that merge (line 186) happens after the
normalization (lines 179-181), the final entry carries the raw string,
not the HTTP-date rendering of that instant. -/
theorem c5_counterexample :
    fmC5.sitemap = some [("lastmod", .vstr "2021-06-01")] ∧
    entryGet (processOne gmAll cfgBase "post.html" fmC5) "lastmod" =
      some (.vstr "2021-06-01") ∧
    jsToUTCString (jsNewDate (.vstr "2021-06-01")) =
      "Tue, 01 Jun 2021 00:00:00 GMT" ∧
    Val.vstr "2021-06-01" ≠
      .vstr (jsToUTCString (jsNewDate (.vstr "2021-06-01"))) :=
  ⟨rfl, rfl, by decide, by decide⟩

/-- C5 (amended): a lastmod present in the entry before the sitemap
merge (that is, resolved from the date property, the filesystem mtime,
the global default, or a path-keyed override) is normalized to the UTC
string rendering of a value; a lastmod supplied by the file's raw
sitemap map is merged after normalization and kept verbatim; the spec
example date 2021-06-01 yields its HTTP-date rendering; and when
lastmod is absent from all sources the field is omitted. -/
theorem c5_lastmod_normalization (gm : String → String → Bool)
    (cfg : Config) (file : String) (fm fm' : Frontmatter) (e : Obj)
    (hrun : processOne gm cfg file fm = .ok (fm', some e)) :
    (fm'.sitemap = none → ∀ v, e.get "lastmod" = some v →
        ∃ w, v = .vstr (jsToUTCString (jsNewDate w))) ∧
    (∀ sm v, fm'.sitemap = some sm → (sm.map Prod.fst).Nodup →
        alistGet sm "lastmod" = some v → e.get "lastmod" = some v) ∧
    (fm.date = some (.vstr "2021-06-01") → cfg.overrides = none →
        fm'.sitemap = none →
        e.get "lastmod" = some (.vstr "Tue, 01 Jun 2021 00:00:00 GMT")) ∧
    (fm.date = none → fm.stats = some { mtime := none } →
        cfg.lastmod = none → cfg.overrides = none → fm'.sitemap = none →
        e.hasKey "lastmod" = false) := by
  obtain ⟨hck, hfm, he⟩ := processOne_ok_some gm cfg file fm fm' e hrun
  subst he
  refine ⟨?_, ?_, ?_, ?_⟩
  · intro hsm v hget
    simp only [buildFullEntry, hsm] at hget
    rw [Obj.get_set_ne _ _ _ _ (by decide : ("lastmod" : String) ≠ "url")] at hget
    exact ⟨jsGet (applyOverrides cfg.overrides file (buildEntry0 cfg fm')) "lastmod",
      normalizeLastmod_get _ _ hget⟩
  · intro sm v hsm hnd hget
    simp only [buildFullEntry, hsm]
    exact mergeObj_get_nodup _ _ _ _ hnd hget
  · intro hdate hov hsm
    have hlm' : fm'.lastmod = some (.vstr "2021-06-01") := by
      rw [hfm, (applyPageType_frame cfg.page_types _).2.2.2.2.2.1]
      show lastmodSource fm = some (.vstr "2021-06-01")
      unfold lastmodSource
      rw [hdate]
      rfl
    have hb : (buildEntry0 cfg fm').get "lastmod" =
        some (.vstr "2021-06-01") := by
      rw [buildEntry0_get_lastmod, hlm']
      rfl
    simp only [buildFullEntry, hsm, hov, applyOverrides]
    rw [Obj.get_set_ne _ _ _ _ (by decide : ("lastmod" : String) ≠ "url")]
    unfold normalizeLastmod
    have hk : (buildEntry0 cfg fm').hasKey "lastmod" = true := by
      unfold Obj.hasKey
      rw [hb]
      rfl
    rw [if_pos hk, Obj.get_set_self,
      show jsGet (buildEntry0 cfg fm') "lastmod" = .vstr "2021-06-01" from by
        unfold jsGet
        rw [hb]
        rfl]
    rfl
  · intro hd hst hcl hov hsm
    have hlm' : fm'.lastmod = some Val.vundefined := by
      rw [hfm, (applyPageType_frame cfg.page_types _).2.2.2.2.2.1]
      show lastmodSource fm = some Val.vundefined
      unfold lastmodSource
      rw [hd, hst]
      rfl
    have hb : (buildEntry0 cfg fm').get "lastmod" = none := by
      rw [buildEntry0_get_lastmod, hlm', hcl]
      rfl
    have hk : (buildEntry0 cfg fm').hasKey "lastmod" = false := by
      unfold Obj.hasKey
      rw [hb]
      rfl
    simp only [buildFullEntry, hsm, hov, applyOverrides]
    unfold Obj.hasKey
    rw [Obj.get_set_ne _ _ _ _ (by decide : ("lastmod" : String) ≠ "url")]
    unfold normalizeLastmod
    rw [if_neg (by simp [hk]), hb]
    rfl

/-- C5 witness: the amended statement applied to a concrete file whose
sitemap map supplies a raw lastmod string: the raw value survives
verbatim in the final entry. -/
theorem c5_witness :
    Obj.get entryC5w "lastmod" = some (.vstr "sitemap-raw") :=
  (c5_lastmod_normalization gmAll cfgBase "q.html" fmC5w fmC5wRes entryC5w
    rfl).2.1 [("lastmod", .vstr "sitemap-raw")] (.vstr "sitemap-raw")
    rfl (by decide) rfl

/-- C9: for every file that passes the inclusion check, processing
mutates the file's own frontmatter record: lastmod is written (from the
date property when present, else from the stats mtime), and when the
file names a page type known to the configuration, changefreq and
priority are overwritten with that category's values; all other fields
are left unchanged. -/
theorem c9_frontmatter_mutation (gm : String → String → Bool)
    (cfg : Config) (file : String) (fm fm' : Frontmatter) (e : Obj)
    (hrun : processOne gm cfg file fm = .ok (fm', some e)) :
    fm'.lastmod = lastmodSource fm ∧
    (fm'.lastmod).isSome = true ∧
    (fm.date.isSome → fm'.lastmod = fm.date) ∧
    (fm.date = none → ∀ st, fm.stats = some st →
        fm'.lastmod = some (optVal st.mtime)) ∧
    (∀ pt ptObj, fm.page_type = some pt →
        alistGet cfg.page_types (jsToPropKey pt) = some ptObj →
        fm'.changefreq = some (jsGet ptObj "changefreq") ∧
        fm'.priority = some (jsGet ptObj "priority")) ∧
    (fm.page_type = none →
        fm'.changefreq = fm.changefreq ∧ fm'.priority = fm.priority) ∧
    (∀ pt, fm.page_type = some pt →
        alistGet cfg.page_types (jsToPropKey pt) = none →
        fm'.changefreq = fm.changefreq ∧ fm'.priority = fm.priority) ∧
    fm'.priv = fm.priv ∧ fm'.canonical = fm.canonical ∧
    fm'.date = fm.date ∧ fm'.stats = fm.stats ∧
    fm'.page_type = fm.page_type ∧ fm'.sitemap = fm.sitemap := by
  obtain ⟨hck, hfm, -⟩ := processOne_ok_some gm cfg file fm fm' e hrun
  have hsrc := processOne_ok_sources gm cfg file fm fm' e hrun
  have hframe := applyPageType_frame cfg.page_types
    { fm with lastmod := lastmodSource fm }
  have hlm : fm'.lastmod = lastmodSource fm := by
    rw [hfm]
    exact hframe.2.2.2.2.2.1
  refine ⟨hlm, ?_, ?_, ?_, ?_, ?_, ?_, ?_, ?_, ?_, ?_, ?_, ?_⟩
  · rw [hlm]
    exact lastmodSource_isSome fm hsrc
  · intro hd
    rw [hlm]
    unfold lastmodSource
    rw [if_pos hd]
  · intro hd st hst
    rw [hlm]
    unfold lastmodSource
    rw [hd, hst]
    rfl
  · intro pt ptObj hpt hget
    rw [hfm, applyPageType_hit cfg.page_types _ pt ptObj
      (show ({ fm with lastmod := lastmodSource fm } : Frontmatter).page_type =
        some pt from hpt) hget]
    exact ⟨rfl, rfl⟩
  · intro hpt
    rw [hfm, applyPageType_none cfg.page_types _
      (show ({ fm with lastmod := lastmodSource fm } : Frontmatter).page_type =
        none from hpt)]
    exact ⟨rfl, rfl⟩
  · intro pt hpt hget
    rw [hfm, applyPageType_unknown cfg.page_types _ pt
      (show ({ fm with lastmod := lastmodSource fm } : Frontmatter).page_type =
        some pt from hpt) hget]
    exact ⟨rfl, rfl⟩
  · rw [hfm]
    exact hframe.1
  · rw [hfm]
    exact hframe.2.1
  · rw [hfm]
    exact hframe.2.2.1
  · rw [hfm]
    exact hframe.2.2.2.1
  · rw [hfm]
    exact hframe.2.2.2.2.1
  · rw [hfm]
    exact hframe.2.2.2.2.2.2

/-- C9 witness: a concrete file naming a known page type: its record
comes back with lastmod written from the mtime, changefreq and priority
overwritten with the category values, and the other fields unchanged. -/
theorem c9_witness :
    fmC9wRes.changefreq = some (.vstr "daily") ∧
    fmC9wRes.priority = some (.vnum qFourFifths) ∧
    fmC9wRes.lastmod = some (.vdate 0) ∧
    fmC9wRes.priv = fmC9w.priv ∧
    fmC9wRes.sitemap = fmC9w.sitemap := by
  have h := c9_frontmatter_mutation gmAll cfgC9w "b.html" fmC9w fmC9wRes
    entryC9w rfl
  have hp := h.2.2.2.2.1 (.vstr "blog")
    [("changefreq", .vstr "daily"), ("priority", .vnum qFourFifths)] rfl rfl
  exact ⟨hp.1, hp.2, h.2.2.2.1 rfl ⟨some (.vdate 0)⟩ rfl,
    h.2.2.2.2.2.2.2.1, h.2.2.2.2.2.2.2.2.2.2.2.2⟩

/-- C10 witness: the throwing case at a concrete empty frontmatter, and
the unreachability part at a concrete safe file set. -/
theorem c10_witness :
    processOne gmAll cfgBase "a.html" fmEmpty =
      .error (.typeError "Cannot read properties of undefined (reading mtime)") ∧
    runPlugin gmAll cfgBase [("a.html", fmStats)] =
      .ok ([("a.html", fmStats)].map fun p => (p.1, fmAfter gmAll cfgBase p.1 p.2),
           [("a.html", fmStats)].filterMap fun p => entryOf gmAll cfgBase p.1 p.2) :=
  ⟨c10_missing_stats_throws.1 gmAll cfgBase "a.html" fmEmpty (by decide) rfl rfl,
   c10_missing_stats_throws.2 gmAll cfgBase [("a.html", fmStats)] (by decide)⟩

end Mapsite
